import Mathlib

/-!
Verification of the `russula` coordination protocol and orchestrator pipeline
of the s2n-netbench repository, shallowly embedded in Lean 4.

Source files embedded here:
* `src/netbench-orchestrator/src/russula/network_utils.rs` (framed transport)
* `src/netbench-orchestrator/src/russula/error.rs` (error taxonomy)
* `src/netbench-orchestrator/src/russula/states.rs` (`StateApi::eq`/`as_bytes`)
* `src/netbench-orchestrator/src/russula/mod.rs` (`Workflow` aggregate, builder)
* `src/netbench-orchestrator/src/russula/protocol.rs` (engine `poll_state_impl`)
* `src/netbench-orchestrator/src/russula/netbench/server_worker.rs`
* `src/netbench-orchestrator/src/ec2_utils.rs` (`InfraDetail::cleanup`)
* `src/netbench-orchestrator/src/orchestrator.rs` (`run`)

Bytes are modelled as `Nat` (each < 256 where relevant); byte strings as
`List Nat`. Fallible Rust functions returning `RussulaResult<T>` become
`Except RussulaError T`. Network I/O is modelled by explicit byte streams
(for the framed transport) or by oracles giving the result of each
successive I/O action (for the retry loops and the protocol engine).
-/

namespace Russula

/-- Model of `RussulaError` from `russula/error.rs`. Each variant carries a debug
string exactly as in the source (`dbg: String`). -/
inductive RussulaError where
  | NetworkConnectionRefused (dbg : String)
  | NetworkFail (dbg : String)
  | ReadFail (dbg : String)
  | NetworkBlocked (dbg : String)
  | BadMsg (dbg : String)
  deriving DecidableEq, Repr

/-- Error kind, i.e. the variant of `RussulaError` with the `dbg` payload
forgotten. Used to state claims about which error *class* is produced. -/
inductive ErrKind where
  | NetworkConnectionRefused
  | NetworkFail
  | ReadFail
  | NetworkBlocked
  | BadMsg
  deriving DecidableEq, Repr

def RussulaError.kind : RussulaError → ErrKind
  | .NetworkConnectionRefused _ => .NetworkConnectionRefused
  | .NetworkFail _ => .NetworkFail
  | .ReadFail _ => .ReadFail
  | .NetworkBlocked _ => .NetworkBlocked
  | .BadMsg _ => .BadMsg

/-- Model of `RussulaError::is_fatal` from `russula/error.rs`: everything except
`NetworkBlocked` is fatal. -/
def RussulaError.is_fatal : RussulaError → Bool
  | .NetworkBlocked _ => false
  | _ => true

/-- State of the standard UTF-8 validation automaton: either between
characters, or expecting a continuation byte in `[lo, hi]` followed by
`more` further continuation bytes in `[0x80, 0xBF]`. -/
inductive Utf8State where
  | start
  | expect (lo hi more : Nat)
  deriving DecidableEq, Repr

/-- One step of the UTF-8 validation automaton: classify the byte according
to the standard well-formed-UTF-8 table (no overlong encodings, no
surrogates, code points ≤ U+10FFFF), as accepted by Rust's
`std::str::from_utf8`. -/
def utf8Step : Utf8State → Nat → Option Utf8State
  | .start, b =>
    if b ≤ 0x7F then some .start
    else if 0xC2 ≤ b && b ≤ 0xDF then some (.expect 0x80 0xBF 0)
    else if b = 0xE0 then some (.expect 0xA0 0xBF 1)
    else if b = 0xED then some (.expect 0x80 0x9F 1)
    else if 0xE1 ≤ b && b ≤ 0xEF then some (.expect 0x80 0xBF 1)
    else if b = 0xF0 then some (.expect 0x90 0xBF 2)
    else if b = 0xF4 then some (.expect 0x80 0x8F 2)
    else if 0xF1 ≤ b && b ≤ 0xF3 then some (.expect 0x80 0xBF 2)
    else none
  | .expect lo hi more, b =>
    if lo ≤ b && b ≤ hi then
      some (if more = 0 then .start else .expect 0x80 0xBF (more - 1))
    else none

/-- Run the UTF-8 validation automaton over a byte sequence. -/
def utf8Run (st : Utf8State) : List Nat → Option Utf8State
  | [] => some st
  | b :: rest =>
    match utf8Step st b with
    | some st2 => utf8Run st2 rest
    | none => none

/-- Validity of a byte sequence as UTF-8, modelling the acceptance of
Rust's `std::str::from_utf8`: the automaton consumes every byte and ends
between characters. -/
def utf8IsValid (l : List Nat) : Bool :=
  match utf8Run Utf8State.start l with
  | some .start => true
  | _ => false

/-- Wire message from `network_utils.rs`: `struct Msg { len: u16, data: Bytes }`. -/
structure Msg where
  len : Nat
  data : List Nat
  deriving DecidableEq, Repr

/-- Model of `Msg::new` from `network_utils.rs`: reject non-UTF-8 payloads with
`BadMsg`; otherwise store the payload and `data.len() as u16`
(Rust `as u16` truncates, i.e. reduces modulo 2^16). -/
def Msg.new (data : List Nat) : Except RussulaError Msg :=
  if utf8IsValid data then
    .ok { len := data.length % 65536, data := data }
  else
    .error (.BadMsg "Failed to parse msg as utf8")

/-- Rust `u16::to_be_bytes` applied to `msg.len`. -/
def u16BeBytes (n : Nat) : List Nat := [n / 256 % 256, n % 256]

/-- Rust `u16::from_be_bytes` on a two-byte buffer. -/
def u16FromBeBytes (b0 b1 : Nat) : Nat := 256 * b0 + b1

/-- Model of `construct_payload` from `network_utils.rs`: the big-endian length prefix
followed by the payload bytes. -/
def construct_payload (msg : Msg) : List Nat :=
  u16BeBytes msg.len ++ msg.data

/-- Model of `read_msg_len` from `network_utils.rs`. The stream is the sequence of
bytes currently available for reading; `try_read` into the 2-byte buffer
`[0; 2]` returns `min 2 stream.length` bytes, leaving the rest of the buffer
zeroed. Returns the decoded `u16` length and the bytes left on the stream. -/
def read_msg_len (stream : List Nat) : Except RussulaError (Nat × List Nat) :=
  let payload_len := min 2 stream.length
  if payload_len = 0 then
    .error (.ReadFail "read 0 byters.. read closed?")
  else
    let b0 := stream.headD 0
    let b1 := (stream.drop 1).headD 0
    .ok (u16FromBeBytes b0 b1, stream.drop 2)

/-- Model of `read_msg` from `network_utils.rs`. After the length prefix, a single
`try_read_buf` returns every byte still available (as in the repository's
own `BufImpl` test harness): zero bytes read fails with `ReadFail`; a read
count differing from the declared length fails with `BadMsg`; otherwise the
payload goes through `Msg::new`. -/
def read_msg (stream : List Nat) : Except RussulaError Msg := do
  let (msg_len, rest) ← read_msg_len stream
  let data := rest
  let read_bytes := data.length
  if read_bytes = 0 then
    .error (.ReadFail "read 0 byters.. read closed?")
  else if read_bytes = msg_len then
    Msg.new data
  else
    .error (.BadMsg "received malformed/partial len")

/-- Model of `send_msg`/`write_msg` from `network_utils.rs`: the frame placed on the
wire is exactly `construct_payload msg` (a full write is modelled). -/
def write_msg (msg : Msg) : List Nat := construct_payload msg

/-- Send-then-receive round trip over a connected pair: build a `Msg` from
the payload, write its frame, and read it back on the peer. -/
def roundTrip (payload : List Nat) : Except RussulaError Msg := do
  let msg ← Msg.new payload
  read_msg (write_msg msg)

/-! ## Server-worker state machine (`russula/netbench/server_worker.rs`) -/

/-- Constant `PLACEHOLDER_PID` from `server_worker.rs`: "Only used when creating a
state variant for comparison". -/
def PLACEHOLDER_PID : Nat := 1000

/-- Model of `WorkerState` from `server_worker.rs`. The `u32` fields of
`RunningAwaitKill` and `Killing` carry the netbench server process id and
are annotated `#[serde(skip)]` in the source. -/
inductive WorkerState where
  | WaitCoordInit
  | Ready
  | Run
  | RunningAwaitKill (pid : Nat)
  | Killing (pid : Nat)
  | Stopped
  | Done
  deriving DecidableEq, Repr

/-- Model of `StateApi::as_bytes` for `WorkerState`: `serde_json::to_string` of the
derived `Serialize`. Because the single tuple field of `RunningAwaitKill`
and `Killing` is `#[serde(skip)]`, serde's derive demotes those newtype
variants to unit variants, so every variant serializes as a bare JSON
string of its name and the pid never reaches the wire. -/
def WorkerState.as_bytes : WorkerState → String
  | .WaitCoordInit => "\"WaitCoordInit\""
  | .Ready => "\"Ready\""
  | .Run => "\"Run\""
  | .RunningAwaitKill _ => "\"RunningAwaitKill\""
  | .Killing _ => "\"Killing\""
  | .Stopped => "\"Stopped\""
  | .Done => "\"Done\""

/-- Same enum variant, the pid payloads ignored (the claim's comparison
relation on `WorkerState`). -/
def WorkerState.sameVariant : WorkerState → WorkerState → Bool
  | .WaitCoordInit, .WaitCoordInit => true
  | .Ready, .Ready => true
  | .Run, .Run => true
  | .RunningAwaitKill _, .RunningAwaitKill _ => true
  | .Killing _, .Killing _ => true
  | .Stopped, .Stopped => true
  | .Done, .Done => true
  | _, _ => false

/-- Model of `WorkerState::next_state` from `server_worker.rs`. -/
def WorkerState.next_state : WorkerState → WorkerState
  | .WaitCoordInit => .Ready
  | .Ready => .Run
  | .Run => .RunningAwaitKill PLACEHOLDER_PID
  | .RunningAwaitKill pid => .Killing pid
  | .Killing _ => .Stopped
  | .Stopped => .Done
  | .Done => .Done

/-! ## Workflow aggregate (`russula/mod.rs`) -/

/-- Model of `WorkflowState` from `russula/mod.rs`: the target states an embedding
application can poll for. -/
inductive WorkflowState where
  | Ready
  | Done
  | WorkerRunning
  deriving DecidableEq, Repr

/-- Model of `core::task::Poll<()>`. -/
inductive Poll where
  | Ready
  | Pending
  deriving DecidableEq, Repr

/-- One peer workflow instance held by a `Workflow` aggregate (`Host` in
`russula/mod.rs`): its current state together with the per-instance
`ready_state`/`done_state`/`worker_running_state` of its `WorkflowTrait`
implementation. The state type `S` and its `as_bytes` serialization are
parameters, as in the generic Rust code. -/
structure Instance (S : Type) where
  state : S
  readyState : S
  doneState : S
  workerRunningState : S

/-- Target-state selection in `WorkflowTrait::is_state` / `poll_state`. -/
def Instance.target {S : Type} (inst : Instance S) : WorkflowState → S
  | .Ready => inst.readyState
  | .Done => inst.doneState
  | .WorkerRunning => inst.workerRunningState

/-- Model of `WorkflowTrait::is_state` (default method, `protocol.rs`): the current
state equals the target state, where `StateApi::eq` compares serialized
bytes (`states.rs`). -/
def Instance.is_state {S : Type} (asBytes : S → String) (inst : Instance S)
    (ws : WorkflowState) : Bool :=
  asBytes inst.state == asBytes (inst.target ws)

/-- Model of the `Workflow` aggregate from `russula/mod.rs`: a list of peer
instances (the poll delay only matters for timing and is omitted). -/
structure Workflow (S : Type) where
  instances : List (Instance S)

/-- Model of `Workflow::is_state`: every instance must be at the desired state. -/
def Workflow.is_state {S : Type} (asBytes : S → String) (w : Workflow S)
    (ws : WorkflowState) : Bool :=
  w.instances.all (fun peer => peer.is_state asBytes ws)

/-- Model of `Workflow::poll_state` from `russula/mod.rs`: first poll every peer
instance (the effect of the per-peer `WorkflowTrait::poll_state`, which may
advance that instance, is abstracted as `step`; fatal per-peer errors panic
in the source and are outside this model), then return `Ready` iff
`is_state` holds for all instances, else `Pending`. Returns the poll result
together with the updated aggregate. -/
def Workflow.poll_state {S : Type} (asBytes : S → String)
    (step : Instance S → Instance S) (w : Workflow S) (ws : WorkflowState) :
    Poll × Workflow S :=
  let w2 : Workflow S := ⟨w.instances.map step⟩
  (if w2.is_state asBytes ws then .Ready else .Pending, w2)

/-! ## Aggregate build (`WorkflowBuilder::build`, `russula/mod.rs`) -/

/-- Constant `CONNECT_RETRY_ATTEMPT` from `russula/mod.rs`. -/
def CONNECT_RETRY_ATTEMPT : Nat := 10

/-- The connect loop of `WorkflowBuilder::build` for a single peer address.
`pair i` is the outcome of the i-th `pair_peer` attempt (0-based); `conn`
abstracts the connected `TcpStream`. The source checks
`retry_attempts == 0` before each attempt and decrements after a failed
one, so a budget of `n` allows exactly `n` attempts before giving up with
`NetworkConnectionRefused`. Also returns the number of attempts made. -/
def connectLoop {Conn : Type} (pair : Nat → Except RussulaError Conn) :
    Nat → Nat → Except RussulaError (Conn × Nat)
  | 0, _ =>
    .error (.NetworkConnectionRefused "Failed to connect to peer")
  | retryAttempts + 1, i =>
    match pair i with
    | .ok conn => .ok (conn, i + 1)
    | .error _ => connectLoop pair retryAttempts (i + 1)

/-- Model of `WorkflowBuilder::build`: connect to each peer address in order, each
with a fresh `CONNECT_RETRY_ATTEMPT` budget; the first exhausted address
aborts the build. Returns the list of connections. -/
def workflowBuild {Conn : Type}
    (addrs : List (Nat → Except RussulaError Conn)) :
    Except RussulaError (List Conn) :=
  match addrs with
  | [] => .ok []
  | pair :: rest => do
    let (conn, _) ← connectLoop pair CONNECT_RETRY_ATTEMPT 0
    let conns ← workflowBuild rest
    .ok (conn :: conns)

/-! ## Protocol engine (`WorkflowTrait::poll_state_impl`, `protocol.rs`) -/

/-- Constant `NOTIFY_DONE_TIMEOUT` from `protocol.rs`, in seconds: the sleep after
each terminal-notify send. -/
def NOTIFY_DONE_TIMEOUT_SECS : Nat := 1

/-- Constant `DONE_SENT_COUNT` from `protocol.rs`: how many times the `Done` state
is re-sent to the peer. -/
def DONE_SENT_COUNT : Nat := 3

/-- The error variants the done-notify loop of `poll_state_impl` ignores:
its `match` arms name exactly `NetworkConnectionRefused`, `NetworkBlocked`
and `NetworkFail`; any other error (`ReadFail`, `BadMsg`) is returned. -/
def ignoredWhenDone : RussulaError → Bool
  | .NetworkConnectionRefused _ => true
  | .NetworkBlocked _ => true
  | .NetworkFail _ => true
  | _ => false

/-- The pieces of a `WorkflowTrait` implementation that `poll_state_impl`
consults: the state serialization and the role's `done_state`. -/
structure ProtoSim (S : Type) where
  asBytes : S → String
  doneState : S

/-- Model of the `for _i in 0..DONE_SENT_COUNT` loop of `poll_state_impl`.
`oracle i` is the outcome of the i-th `run_current` call of this
`poll_state_impl` invocation (on success it yields the protocol state after
the call); `i` is the next oracle index, threaded through so the caller can
read off how many `run_current` calls were made in total. The one-second
sleep after each iteration only affects timing and is not modelled. -/
def doneNotifyLoop {S : Type} (oracle : Nat → Except RussulaError S) :
    Nat → Nat → S → Except RussulaError (S × Nat)
  | 0, i, s => .ok (s, i)
  | remaining + 1, i, s =>
    match oracle i with
    | .ok s2 => doneNotifyLoop oracle remaining (i + 1) s2
    | .error e =>
      if ignoredWhenDone e then doneNotifyLoop oracle remaining (i + 1) s
      else .error e

/-- Model of `WorkflowTrait::poll_state_impl` from `protocol.rs`:
1. if the current state differs from the desired state (compared via
   serialized bytes, `StateApi::eq`), call `run_current` once, propagating
   its error;
2. if the state is now the role's `done_state`, run the done-notify loop
   `DONE_SENT_COUNT` times, ignoring `ignoredWhenDone` errors and
   propagating the rest;
3. return `Ready` iff the final state equals the desired state.
The result carries the final state and the total number of `run_current`
calls made. -/
def poll_state_impl {S : Type} (sim : ProtoSim S)
    (oracle : Nat → Except RussulaError S) (desired s : S) :
    Except RussulaError (Poll × S × Nat) := do
  let (s1, i1) ←
    if sim.asBytes s == sim.asBytes desired then
      Except.ok (s, 0)
    else
      match oracle 0 with
      | .ok s2 => Except.ok (s2, 1)
      | .error e => Except.error e
  let (s2, i2) ←
    if sim.asBytes s1 == sim.asBytes sim.doneState then
      doneNotifyLoop oracle DONE_SENT_COUNT i1 s1
    else
      Except.ok (s1, i1)
  let poll := if sim.asBytes s2 == sim.asBytes desired then Poll.Ready else Poll.Pending
  .ok (poll, s2, i2)

end Russula

namespace Orch

/-- Model of `OrchError` from `orchestrator/error.rs`. -/
inductive OrchError where
  | Init (dbg : String)
  | Ec2 (dbg : String)
  | Iam (dbg : String)
  | Ssm (dbg : String)
  | S3 (dbg : String)
  | Russula (dbg : String)
  deriving DecidableEq, Repr

/-! ## Infrastructure teardown (`ec2_utils.rs`) -/

/-- Constant `MAX_RETRY_COUNT` from `ec2_utils.rs`. -/
def MAX_RETRY_COUNT : Nat := 25

/-- Constant `RETRY_BACKOFF` from `ec2_utils.rs`, in seconds. -/
def RETRY_BACKOFF_SECS : Nat := 5

/-- Outcome of one AWS SDK delete/terminate call, as the `match` in
`ec2_utils.rs` distinguishes them: success, a service error carrying an
error code (`SdkError::ServiceError` with `meta().code()`), or any other
SDK error. `dbg` stands for `err.to_string()`. -/
inductive SdkOutcome where
  | ok
  | serviceError (code : Option String) (dbg : String)
  | otherError (dbg : String)
  deriving DecidableEq, Repr

/-- The retry loop shared by `delete_security_group` and
`delete_placement_group` in `ec2_utils.rs`: up to `MAX_RETRY_COUNT`
attempts; a service error whose code equals `retryCode` sleeps
`RETRY_BACKOFF` and retries (failing with `stillInUse` once
`attempt == MAX_RETRY_COUNT`); any other error aborts with `Ec2`
immediately. `oracle n` is the outcome of the n-th attempt (1-based, as the
source increments `attempt` before the call). Returns the number of
attempts made on success. -/
def deleteRetryLoop (retryCode stillInUse : String)
    (oracle : Nat → SdkOutcome) (attempt remaining : Nat) :
    Except OrchError Nat :=
  match remaining with
  | 0 => .ok attempt
  | r + 1 =>
    let attempt2 := attempt + 1
    match oracle attempt2 with
    | .ok => .ok attempt2
    | .serviceError code dbg =>
      if code = some retryCode then
        if attempt2 = MAX_RETRY_COUNT then .error (.Ec2 stillInUse)
        else deleteRetryLoop retryCode stillInUse oracle attempt2 r
      else .error (.Ec2 dbg)
    | .otherError dbg => .error (.Ec2 dbg)

/-- Model of `InfraDetail::delete_security_group`: retry on `DependencyViolation`. -/
def delete_security_group (oracle : Nat → SdkOutcome) : Except OrchError Nat :=
  deleteRetryLoop "DependencyViolation"
    "Failed to delete security group because it's still in use"
    oracle 0 MAX_RETRY_COUNT

/-- Model of `InfraDetail::delete_placement_group`: one retry loop per placement
group (keyed by availability zone), in order, retrying on
`InvalidPlacementGroup.InUse`; the first failing group aborts the rest. -/
def delete_placement_group (oracles : List (Nat → SdkOutcome)) :
    Except OrchError (List Nat) :=
  match oracles with
  | [] => .ok []
  | oracle :: rest => do
    let n ← deleteRetryLoop "InvalidPlacementGroup.InUse"
      "Failed to delete placement group because it's still in-use"
      oracle 0 MAX_RETRY_COUNT
    let ns ← delete_placement_group rest
    .ok (n :: ns)

/-- Model of `InfraDetail::delete_instances`: a single `terminate_instances` call;
any SDK error at all is mapped to `OrchError::Ec2`. -/
def delete_instances (outcome : SdkOutcome) : Except OrchError Unit :=
  match outcome with
  | .ok => .ok ()
  | .serviceError _ dbg => .error (.Ec2 dbg)
  | .otherError dbg => .error (.Ec2 dbg)

/-- The AWS responses a `cleanup` run will observe: the terminate-instances
outcome, one attempt oracle per placement group, and the security-group
attempt oracle. -/
structure CleanupTrace where
  instOutcome : SdkOutcome
  pgOracles : List (Nat → SdkOutcome)
  sgOracle : Nat → SdkOutcome

/-- What a `cleanup` run did: its result and which of the three resource
deletions were actually attempted. -/
structure CleanupReport where
  result : Except OrchError Unit
  instancesAttempted : Bool
  placementAttempted : Bool
  securityGroupAttempted : Bool
  deriving Repr

/-- Model of `InfraDetail::cleanup` from `ec2_utils.rs`:
`delete_instances(..).await?; delete_placement_group(..).await?;
delete_security_group(..).await?` — each step's error propagates with `?`,
so a failing step prevents the later deletes from being attempted. -/
def cleanup (t : CleanupTrace) : CleanupReport :=
  match delete_instances t.instOutcome with
  | .error e => ⟨.error e, true, false, false⟩
  | .ok _ =>
    match delete_placement_group t.pgOracles with
    | .error e => ⟨.error e, true, true, false⟩
    | .ok _ =>
      match delete_security_group t.sgOracle with
      | .error e => ⟨.error e, true, true, true⟩
      | .ok _ => ⟨.ok (), true, true, true⟩

/-! ## Top-level orchestrator (`orchestrator.rs`, `run`) -/

/-- How `run` can end: return `Ok(())`, return `Err(e)`, or panic (the
`.map_err(|err| eprintln!(..)).unwrap()` on the cleanup result panics when
cleanup failed). -/
inductive RunOutcome where
  | ok
  | err (e : OrchError)
  | panicked
  deriving DecidableEq, Repr

/-- The results of the successive fallible phases `run` executes, in source
order: `upload_run_parameters_to_s3`, `LaunchPlan::create(..).launch(..)`
(the launched infrastructure abstracted away),
`update_dashboard_with_instances`, `run_netbench`, and `infra.cleanup`. -/
structure RunTrace where
  upload : Except OrchError Unit
  launch : Except OrchError Unit
  dashboard : Except OrchError Unit
  netbench : Except OrchError Unit
  cleanupResult : Except OrchError Unit

/-- Model of `run` from `orchestrator.rs`: each phase result is propagated with `?`
(returning immediately on error); only after all phases succeed is
`infra.cleanup` invoked, and a cleanup error is printed and then `unwrap`
panics. Returns the outcome paired with whether cleanup was invoked. -/
def run (t : RunTrace) : RunOutcome × Bool :=
  match t.upload with
  | .error e => (.err e, false)
  | .ok _ =>
    match t.launch with
    | .error e => (.err e, false)
    | .ok _ =>
      match t.dashboard with
      | .error e => (.err e, false)
      | .ok _ =>
        match t.netbench with
        | .error e => (.err e, false)
        | .ok _ =>
          match t.cleanupResult with
          | .ok _ => (.ok, true)
          | .error _ => (.panicked, true)

end Orch

/-! # Theorems -/

namespace Russula

/-- C1: For every Coordinator aggregate and every target state T in
{Ready, Done, WorkerRunning}, `poll_state(T)` returns `Ready` if and only
if every workflow instance the aggregate holds (after this call's per-peer
polling) has a current state whose serialized bytes equal those of that
instance's T state; otherwise it returns `Pending`. -/
theorem c1_poll_state_ready_iff {S : Type} (asBytes : S → String)
    (step : Instance S → Instance S) (w : Workflow S) (ws : WorkflowState) :
    ((Workflow.poll_state asBytes step w ws).1 = Poll.Ready ↔
      ∀ inst ∈ (Workflow.poll_state asBytes step w ws).2.instances,
        asBytes inst.state = asBytes (inst.target ws)) ∧
    ((Workflow.poll_state asBytes step w ws).1 = Poll.Pending ↔
      ¬ ∀ inst ∈ (Workflow.poll_state asBytes step w ws).2.instances,
        asBytes inst.state = asBytes (inst.target ws)) := by
  unfold Workflow.poll_state
  by_cases h : (Workflow.is_state asBytes ⟨w.instances.map step⟩ ws) = true
  · have hall := h
    unfold Workflow.is_state at hall
    rw [List.all_eq_true] at hall
    constructor
    · simp only [h, if_true]
      constructor
      · intro _ inst hin
        have := hall inst hin
        unfold Instance.is_state at this
        exact eq_of_beq this
      · intro _; trivial
    · simp only [h, if_true]
      constructor
      · intro hcontra; exact absurd hcontra (by simp)
      · intro hneg
        exact absurd (fun inst hin => eq_of_beq (by
          have := hall inst hin
          unfold Instance.is_state at this
          exact this)) hneg
  · have hnot : ¬ ∀ inst ∈ w.instances.map step,
        asBytes inst.state = asBytes (inst.target ws) := by
      intro hyp
      apply h
      unfold Workflow.is_state
      rw [List.all_eq_true]
      intro inst hin
      unfold Instance.is_state
      exact beq_iff_eq.mpr (hyp inst hin)
    rw [Bool.not_eq_true] at h
    constructor
    · simp only [h, Bool.false_eq_true, if_false]
      constructor
      · intro hcontra; exact absurd hcontra (by simp)
      · intro hyp; exact absurd hyp hnot
    · simp only [h, Bool.false_eq_true, if_false]
      exact ⟨fun _ => hnot, fun _ => trivial⟩

/-- C4: two server-worker states serialize to the same bytes iff they are
the same enum variant — the pid payload never influences the serialized
form, and distinct variants always serialize to distinct bytes. -/
theorem c4_serialized_bytes_eq_iff_same_variant (s1 s2 : WorkerState) :
    s1.as_bytes = s2.as_bytes ↔ s1.sameVariant s2 = true := by
  cases s1 <;> cases s2 <;>
    simp [WorkerState.as_bytes, WorkerState.sameVariant]

/-- C5: the function `WorkerState::next_state` follows exactly the chain
WaitCoordInit → Ready → Run → RunningAwaitKill(pid) → Killing(pid) →
Stopped → Done (with `Run` introducing the placeholder pid, the pid of
`RunningAwaitKill` preserved into `Killing`), and `next_state` of `Done` is
`Done` itself. -/
theorem c5_next_state_chain :
    WorkerState.next_state .WaitCoordInit = .Ready ∧
    WorkerState.next_state .Ready = .Run ∧
    WorkerState.next_state .Run = .RunningAwaitKill PLACEHOLDER_PID ∧
    (∀ pid, WorkerState.next_state (.RunningAwaitKill pid) = .Killing pid) ∧
    (∀ pid, WorkerState.next_state (.Killing pid) = .Stopped) ∧
    WorkerState.next_state .Stopped = .Done ∧
    WorkerState.next_state .Done = .Done :=
  ⟨rfl, rfl, rfl, fun _ => rfl, fun _ => rfl, rfl, rfl⟩

end Russula

namespace Orch

/-- Exhaustion of the shared teardown retry loop: if every attempt yields a
service error with the retryable code, the loop fails with the
still-in-use `Ec2` error after `MAX_RETRY_COUNT` attempts. -/
theorem deleteRetryLoop_exhaust (code msg : String) (oracle : Nat → SdkOutcome)
    (dbgf : Nat → String)
    (hall : ∀ n, oracle n = SdkOutcome.serviceError (some code) (dbgf n)) :
    ∀ r a, a + r = MAX_RETRY_COUNT → 1 ≤ r →
      deleteRetryLoop code msg oracle a r = .error (.Ec2 msg) := by
  intro r
  induction r with
  | zero => intro a _ h1; omega
  | succ r ih =>
    intro a hsum _
    simp only [deleteRetryLoop, hall (a + 1), if_true]
    by_cases hmax : a + 1 = MAX_RETRY_COUNT
    · rw [if_pos hmax]
    · rw [if_neg hmax]
      exact ih (a + 1) (by omega) (by omega)

/-- C8 counterexample: when deleting a placement group fails with an error
other than the retryable code (here an SDK failure "boom"), `cleanup`
returns that error and the security-group deletion is never attempted —
the claim's "teardown of the remaining resources is still attempted" is
false on the code. -/
theorem c8_counterexample :
    (cleanup ⟨.ok, [fun _ => .otherError "boom"], fun _ => .ok⟩).result
        = .error (.Ec2 "boom") ∧
    (cleanup ⟨.ok, [fun _ => .otherError "boom"], fun _ => .ok⟩).securityGroupAttempted
        = false := by
  constructor <;> rfl

/-- C8 (amended): teardown deletes instances first, then placement groups,
then the security group, each later step attempted only if the earlier ones
succeeded; the two dependent deletes retry up to `MAX_RETRY_COUNT = 25`
times (backoff `RETRY_BACKOFF_SECS = 5`) on their retryable error codes;
and any other error aborts the *entire remaining teardown*: `cleanup`
propagates the first fatal error and does not attempt the deletions that
come after it. -/
theorem c8_teardown_order_and_retry :
    MAX_RETRY_COUNT = 25 ∧ RETRY_BACKOFF_SECS = 5 ∧
    (∀ t : CleanupTrace,
      (cleanup t).instancesAttempted = true ∧
      (cleanup t).placementAttempted = (delete_instances t.instOutcome).isOk ∧
      (cleanup t).securityGroupAttempted =
        ((delete_instances t.instOutcome).isOk &&
          (delete_placement_group t.pgOracles).isOk)) ∧
    (∀ (t : CleanupTrace) (e : OrchError),
      delete_instances t.instOutcome = .ok () →
      delete_placement_group t.pgOracles = .error e →
      (cleanup t).result = .error e ∧
      (cleanup t).securityGroupAttempted = false) ∧
    (∀ (oracle : Nat → SdkOutcome) (dbgf : Nat → String),
      (∀ n, oracle n = SdkOutcome.serviceError (some "DependencyViolation") (dbgf n)) →
      delete_security_group oracle =
        .error (.Ec2 "Failed to delete security group because it's still in use")) ∧
    (∀ (oracle : Nat → SdkOutcome) (dbg : String),
      oracle 1 = SdkOutcome.otherError dbg →
      delete_security_group oracle = .error (.Ec2 dbg)) := by
  refine ⟨rfl, rfl, ?_, ?_, ?_, ?_⟩
  · intro t
    unfold cleanup
    cases hinst : delete_instances t.instOutcome with
    | error e => simp [hinst, Except.isOk, Except.toBool]
    | ok u =>
      cases hpg : delete_placement_group t.pgOracles with
      | error e => simp [hpg, Except.isOk, Except.toBool]
      | ok l =>
        cases hsg : delete_security_group t.sgOracle with
        | error e => simp [Except.isOk, Except.toBool]
        | ok n => simp [Except.isOk, Except.toBool]
  · intro t e hinst hpg
    unfold cleanup
    rw [hinst, hpg]
    exact ⟨rfl, rfl⟩
  · intro oracle dbgf hall
    exact deleteRetryLoop_exhaust _ _ oracle dbgf hall MAX_RETRY_COUNT 0 rfl (by decide)
  · intro oracle dbg h1
    simp [delete_security_group, deleteRetryLoop, MAX_RETRY_COUNT, h1]

/-- Closed instantiation of `c8_teardown_order_and_retry`: a
`DependencyViolation` on every security-group delete attempt exhausts the
25-attempt budget and fails with the still-in-use error. -/
theorem c8_teardown_order_and_retry_witness :
    delete_security_group (fun _ => SdkOutcome.serviceError (some "DependencyViolation") "sg in use")
      = .error (.Ec2 "Failed to delete security group because it's still in use") :=
  c8_teardown_order_and_retry.2.2.2.2.1
    (fun _ => SdkOutcome.serviceError (some "DependencyViolation") "sg in use")
    (fun _ => "sg in use") (fun _ => rfl)

/-- C9 counterexample: a fatal Coordinate-phase error (from `run_netbench`)
is returned by `run` with the infrastructure cleanup never invoked — the
claim that `run` "invokes infrastructure Teardown before returning that
error" is false on the code. -/
theorem c9_counterexample :
    run ⟨.ok (), .ok (), .ok (), .error (.Russula "coordination failed"), .ok ()⟩
      = (.err (.Russula "coordination failed"), false) := rfl

/-- C9 (amended): `run` propagates the first fatal phase error immediately
and does *not* invoke teardown on any error path; teardown is invoked
exactly when all phases succeed, and a teardown failure is printed and then
causes a panic (via `unwrap`) rather than being returned as `run`'s
result. -/
theorem c9_run_error_propagation :
    ∀ t : RunTrace,
      ((run t).2 = (t.upload.isOk && t.launch.isOk && t.dashboard.isOk &&
        t.netbench.isOk)) ∧
      (∀ e, (run t).1 = .err e → (run t).2 = false) ∧
      ((run t).1 = .panicked ↔ (run t).2 = true ∧ t.cleanupResult.isOk = false) ∧
      ((run t).1 = .ok ↔ (run t).2 = true ∧ t.cleanupResult.isOk = true) := by
  intro t
  obtain ⟨u, l, d, n, c⟩ := t
  cases u <;> cases l <;> cases d <;> cases n <;> cases c <;>
    simp [run, Except.isOk, Except.toBool]

/-- Closed instantiation of `c9_run_error_propagation`: a failed launch
phase means `run` returned without invoking cleanup. -/
theorem c9_run_error_propagation_witness :
    (run ⟨.ok (), .error (.Ec2 "launch failed"), .ok (), .ok (), .ok ()⟩).2 = false :=
  (c9_run_error_propagation
    ⟨.ok (), .error (.Ec2 "launch failed"), .ok (), .ok (), .ok ()⟩).2.1
    (.Ec2 "launch failed") rfl

end Orch

namespace Russula

/-- Reduction of `Except` bind on a success, as produced by do-notation. -/
theorem exceptBind_ok {ε α β : Type} (a : α) (f : α → Except ε β) :
    (Except.ok a >>= f) = f a := rfl

/-- Reduction of `Except` bind on an error, as produced by do-notation. -/
theorem exceptBind_error {ε α β : Type} (e : ε) (f : α → Except ε β) :
    ((Except.error e : Except ε α) >>= f) = .error e := rfl

/-- If each consulted `run_current` outcome either succeeds leaving the
state at `s` or fails with an error the done-notify loop ignores, the loop
completes, consuming exactly one oracle entry per iteration. -/
theorem doneNotifyLoop_ok {S : Type} (oracle : Nat → Except RussulaError S)
    (s : S) :
    ∀ n i, (∀ j, j < n → oracle (i + j) = .ok s ∨
        ∃ e, oracle (i + j) = .error e ∧ ignoredWhenDone e = true) →
      doneNotifyLoop oracle n i s = .ok (s, i + n) := by
  intro n
  induction n with
  | zero => intro i _; simp [doneNotifyLoop]
  | succ n ih =>
    intro i h
    unfold doneNotifyLoop
    rcases h 0 (by omega) with hok | ⟨e, herr, hign⟩
    · rw [Nat.add_zero] at hok
      rw [hok]
      rw [show i + (n + 1) = (i + 1) + n from by omega]
      exact ih (i + 1) (fun j hj => by
        have := h (j + 1) (by omega)
        rwa [show i + (j + 1) = i + 1 + j by omega] at this)
    · rw [Nat.add_zero] at herr
      rw [herr]
      simp only [hign, if_true]
      rw [show i + (n + 1) = (i + 1) + n from by omega]
      exact ih (i + 1) (fun j hj => by
        have := h (j + 1) (by omega)
        rwa [show i + (j + 1) = i + 1 + j by omega] at this)

/-- A non-ignored error from the first consulted `run_current` outcome is
returned by the done-notify loop. -/
theorem doneNotifyLoop_fatal_first {S : Type}
    (oracle : Nat → Except RussulaError S) (s : S) (e : RussulaError)
    (i : Nat) (hign : ignoredWhenDone e = false) (herr : oracle i = .error e)
    (n : Nat) : doneNotifyLoop oracle (n + 1) i s = .error e := by
  unfold doneNotifyLoop
  rw [herr]
  simp [hign]

/-- C6 counterexample: with the role already in its `Done` state, a
`ReadFail` from the very first terminal-notify send is returned by
`poll_state_impl`, not ignored — refuting the claim that "errors of every
network error class (including read failure and bad-message errors) are
ignored" during the extra Done sends. -/
theorem c6_counterexample :
    poll_state_impl ⟨WorkerState.as_bytes, WorkerState.Done⟩
        (fun _ => .error (.ReadFail "connection closed"))
        WorkerState.Done WorkerState.Done
      = .error (.ReadFail "connection closed") := rfl

/-- C6 (amended): when a role's current state is its `Done` state,
`poll_state_impl` performs exactly `DONE_SENT_COUNT = 3` `run_current`
calls (each sending the Done state, with a `NOTIFY_DONE_TIMEOUT_SECS = 1`
second sleep after each), during which errors of the classes
`NetworkConnectionRefused`, `NetworkBlocked` and `NetworkFail` are ignored;
any other error — in particular `ReadFail` and `BadMsg` — is returned
immediately rather than ignored. -/
theorem c6_done_notify {S : Type} (sim : ProtoSim S) (s : S)
    (hdone : sim.asBytes s = sim.asBytes sim.doneState) :
    (∀ oracle : Nat → Except RussulaError S,
      (∀ i, i < DONE_SENT_COUNT → oracle i = .ok s ∨
        ∃ e, oracle i = .error e ∧ ignoredWhenDone e = true) →
      poll_state_impl sim oracle s s = .ok (.Ready, s, DONE_SENT_COUNT)) ∧
    (∀ (oracle : Nat → Except RussulaError S) (e : RussulaError),
      ignoredWhenDone e = false → oracle 0 = .error e →
      poll_state_impl sim oracle s s = .error e) ∧
    DONE_SENT_COUNT = 3 ∧ NOTIFY_DONE_TIMEOUT_SECS = 1 ∧
    ignoredWhenDone (.ReadFail "") = false ∧
    ignoredWhenDone (.BadMsg "") = false := by
  have h1 : (sim.asBytes s == sim.asBytes s) = true := beq_self_eq_true _
  have h2 : (sim.asBytes s == sim.asBytes sim.doneState) = true :=
    beq_iff_eq.mpr hdone
  refine ⟨?_, ?_, rfl, rfl, rfl, rfl⟩
  · intro oracle h
    simp only [poll_state_impl, h1, h2, if_true, exceptBind_ok]
    rw [doneNotifyLoop_ok oracle s DONE_SENT_COUNT 0 (fun j hj => by
      simpa using h j hj)]
    simp [exceptBind_ok, h1]
  · intro oracle e hign herr
    simp only [poll_state_impl, h1, h2, if_true, exceptBind_ok]
    rw [show DONE_SENT_COUNT = 2 + 1 from rfl,
      doneNotifyLoop_fatal_first oracle s e 0 hign herr 2]
    rfl

/-- Closed instantiation of `c6_done_notify`: three transient
`NetworkFail`s during the Done notification are all ignored and the poll
still reports `Ready` after the three sends. -/
theorem c6_done_notify_witness :
    poll_state_impl ⟨WorkerState.as_bytes, WorkerState.Done⟩
        (fun _ => .error (.NetworkFail "peer closed"))
        WorkerState.Done WorkerState.Done
      = .ok (.Ready, WorkerState.Done, DONE_SENT_COUNT) :=
  (c6_done_notify ⟨WorkerState.as_bytes, WorkerState.Done⟩ WorkerState.Done rfl).1
    (fun _ => .error (.NetworkFail "peer closed"))
    (fun _ _ => Or.inr ⟨.NetworkFail "peer closed", rfl, rfl⟩)

/-- If the first `n` pairing attempts starting at index `i` all fail, the
connect loop with budget `n` gives up with `NetworkConnectionRefused`. -/
theorem connectLoop_all_fail {Conn : Type}
    (pair : Nat → Except RussulaError Conn) :
    ∀ n i, (∀ j, j < n → ∃ e, pair (i + j) = .error e) →
      connectLoop pair n i =
        .error (.NetworkConnectionRefused "Failed to connect to peer") := by
  intro n
  induction n with
  | zero => intro _ _; rfl
  | succ n ih =>
    intro i h
    obtain ⟨e, he⟩ := h 0 (by omega)
    rw [Nat.add_zero] at he
    unfold connectLoop
    rw [he]
    exact ih (i + 1) (fun j hj => by
      have := h (j + 1) (by omega)
      rwa [show i + (j + 1) = i + 1 + j by omega] at this)

/-- C7: during aggregate build each peer address gets up to
`CONNECT_RETRY_ATTEMPT = 10` outbound connect attempts; if all ten fail —
whatever the kinds of the underlying connection errors — `build` returns
`NetworkConnectionRefused`, regardless of any remaining addresses. -/
theorem c7_build_connection_refused {Conn : Type}
    (pair : Nat → Except RussulaError Conn)
    (h : ∀ i, i < CONNECT_RETRY_ATTEMPT → ∃ e, pair i = .error e) :
    connectLoop pair CONNECT_RETRY_ATTEMPT 0 =
      .error (.NetworkConnectionRefused "Failed to connect to peer") ∧
    (∀ rest : List (Nat → Except RussulaError Conn),
      workflowBuild (pair :: rest) =
        .error (.NetworkConnectionRefused "Failed to connect to peer")) ∧
    CONNECT_RETRY_ATTEMPT = 10 := by
  have hloop := connectLoop_all_fail pair CONNECT_RETRY_ATTEMPT 0
    (fun j hj => by simpa using h j hj)
  refine ⟨hloop, ?_, rfl⟩
  intro rest
  unfold workflowBuild
  rw [hloop]
  rfl

/-- Closed instantiation of `c7_build_connection_refused`: ten
`NetworkFail`s (a kind other than connection-refused) still exhaust the
budget into `NetworkConnectionRefused`. -/
theorem c7_build_connection_refused_witness :
    workflowBuild [fun _ => (.error (.NetworkFail "no route") :
        Except RussulaError Unit)] =
      .error (.NetworkConnectionRefused "Failed to connect to peer") :=
  (c7_build_connection_refused (fun _ => .error (.NetworkFail "no route"))
    (fun _ _ => ⟨.NetworkFail "no route", rfl⟩)).2.1 []

end Russula

namespace Russula

/-- The error kind of a fallible result, `none` on success. -/
def resultErrKind {α : Type} : Except RussulaError α → Option ErrKind
  | .error e => some e.kind
  | .ok _ => none

/-- Evaluation of `read_msg_len` on a stream holding at least the 2-byte prefix: the
prefix decodes big-endian and the rest of the stream remains. -/
theorem read_msg_len_cons (b0 b1 : Nat) (payload : List Nat) :
    read_msg_len (b0 :: b1 :: payload) = .ok (u16FromBeBytes b0 b1, payload) := by
  unfold read_msg_len
  rw [if_neg (by simp)]
  simp

/-- Evaluation of `read_msg` on a stream holding the 2-byte prefix followed by the
available payload bytes: `ReadFail` when no payload byte is available,
`Msg::new` when the count matches the declared length, `BadMsg`
otherwise. -/
theorem read_msg_cons (b0 b1 : Nat) (payload : List Nat) :
    read_msg (b0 :: b1 :: payload) =
      if payload.length = 0 then
        .error (.ReadFail "read 0 byters.. read closed?")
      else if payload.length = u16FromBeBytes b0 b1 then
        Msg.new payload
      else
        .error (.BadMsg "received malformed/partial len") := by
  simp only [read_msg, read_msg_len_cons, exceptBind_ok]

/-- C2 counterexample: the frame `0x00 0x05` followed by only three payload
bytes before EOF fails with `BadMsg`, not `ReadFail` — refuting the claim
that a short payload read fails with `ReadFail`. -/
theorem c2_counterexample :
    resultErrKind (read_msg [0, 5, 97, 98, 99]) = some ErrKind.BadMsg ∧
    resultErrKind (read_msg [0, 5, 97, 98, 99]) ≠ some ErrKind.ReadFail := by
  exact ⟨rfl, by decide⟩

/-- C2 (amended): receive-message reads the 2-byte big-endian length
prefix, failing with `ReadFail` when 0 bytes are returned; it then reads
the available payload bytes: if zero payload bytes arrive it fails with
`ReadFail`, and if a nonzero number of bytes different from `len` arrives —
in particular fewer than `len` before EOF — it fails with `BadMsg` (not
`ReadFail`). -/
theorem c2_read_msg_error_kinds (b0 b1 : Nat) (payload : List Nat) :
    read_msg [] = .error (.ReadFail "read 0 byters.. read closed?") ∧
    (payload = [] →
      read_msg (b0 :: b1 :: payload) =
        .error (.ReadFail "read 0 byters.. read closed?")) ∧
    (payload ≠ [] → payload.length ≠ u16FromBeBytes b0 b1 →
      read_msg (b0 :: b1 :: payload) =
        .error (.BadMsg "received malformed/partial len")) := by
  refine ⟨rfl, ?_, ?_⟩
  · intro hnil
    rw [read_msg_cons, if_pos (by simp [hnil])]
  · intro hne hlen
    rw [read_msg_cons, if_neg (by simpa using hne), if_neg hlen]

/-- Closed instantiation of `c2_read_msg_error_kinds`: declared length 5,
one payload byte before EOF, `BadMsg` returned. -/
theorem c2_read_msg_error_kinds_witness :
    read_msg [0, 5, 97] = .error (.BadMsg "received malformed/partial len") :=
  (c2_read_msg_error_kinds 0 5 [97]).2.2 (by simp) (by decide)

/-- C3 counterexample: the empty payload is valid UTF-8 of length ≤ 65535,
yet its send/receive round trip fails with `ReadFail` (the reader treats
the zero-byte payload read as a closed connection) instead of yielding the
empty message — refuting the claim for every such byte sequence. -/
theorem c3_counterexample :
    utf8IsValid ([] : List Nat) = true ∧
    ([] : List Nat).length ≤ 65535 ∧
    roundTrip [] = .error (.ReadFail "read 0 byters.. read closed?") :=
  ⟨rfl, by decide, rfl⟩

/-- C3 (amended): for every valid-UTF-8 byte sequence B with
1 ≤ len(B) ≤ 65535, send-message of B followed by receive-message yields a
message whose payload equals B and whose reported length equals len(B);
the 5-byte payload "Hello" is encoded as the frame
`0x00 0x05 'H' 'e' 'l' 'l' 'o'`. (The empty sequence is excluded: its
round trip fails with `ReadFail`.) -/
theorem c3_framing_round_trip (B : List Nat) (hv : utf8IsValid B = true)
    (h1 : 1 ≤ B.length) (h2 : B.length ≤ 65535) :
    roundTrip B = .ok ⟨B.length, B⟩ ∧
    (Msg.new [72, 101, 108, 108, 111]).map construct_payload
      = .ok [0, 5, 72, 101, 108, 108, 111] := by
  constructor
  · have hmod : B.length % 65536 = B.length := Nat.mod_eq_of_lt (by omega)
    have hnew : Msg.new B = .ok ⟨B.length, B⟩ := by
      rw [Msg.new, if_pos hv, hmod]
    simp only [roundTrip, hnew, exceptBind_ok, write_msg, construct_payload,
      u16BeBytes]
    rw [show ([B.length / 256 % 256, B.length % 256] ++ B : List Nat)
        = B.length / 256 % 256 :: B.length % 256 :: B from rfl]
    rw [read_msg_cons]
    rw [if_neg (by omega)]
    rw [if_pos (by unfold u16FromBeBytes; omega)]
    exact hnew
  · rfl

/-- Closed instantiation of `c3_framing_round_trip` at the payload
"Hello". -/
theorem c3_framing_round_trip_witness :
    roundTrip [72, 101, 108, 108, 111] = .ok ⟨5, [72, 101, 108, 108, 111]⟩ :=
  (c3_framing_round_trip [72, 101, 108, 108, 111]
    (by decide) (by decide) (by decide)).1

/-- A run of ASCII bytes is valid UTF-8. -/
theorem utf8Valid_replicate_ascii (c : Nat) (hc : c ≤ 127) :
    ∀ n, utf8IsValid (List.replicate n c) = true := by
  have hstep : utf8Step Utf8State.start c = some Utf8State.start := by
    unfold utf8Step
    simp only [eq_true hc, if_true]
  intro n
  induction n with
  | zero => rfl
  | succ n ih =>
    rw [List.replicate_succ]
    unfold utf8IsValid at ih ⊢
    unfold utf8Run
    rw [hstep]
    exact ih

/-- C10: for a valid-UTF-8 payload longer than 65535 bytes, `Msg::new`
still succeeds but records `payload_len` as the true length modulo 2^16;
`construct_payload` emits the 2-byte prefix holding that truncated value
followed by *all* payload bytes, so the frame's prefix (which decodes to
`len mod 2^16`) disagrees with the number of payload bytes written and the
framing round-trip guarantee is lost beyond the 65535-byte bound. -/
theorem c10_len_truncation (B : List Nat) (hv : utf8IsValid B = true)
    (hlen : 65535 < B.length) :
    Msg.new B = .ok ⟨B.length % 65536, B⟩ ∧
    construct_payload ⟨B.length % 65536, B⟩ =
      (B.length % 65536) / 256 % 256 :: (B.length % 65536) % 256 :: B ∧
    (construct_payload ⟨B.length % 65536, B⟩).length = 2 + B.length ∧
    u16FromBeBytes ((B.length % 65536) / 256 % 256) ((B.length % 65536) % 256)
      = B.length % 65536 ∧
    B.length % 65536 ≠ B.length := by
  refine ⟨by rw [Msg.new, if_pos hv], rfl, ?_, ?_, ?_⟩
  · rw [show construct_payload ⟨B.length % 65536, B⟩ =
        (B.length % 65536) / 256 % 256 :: (B.length % 65536) % 256 :: B from rfl,
      List.length_cons, List.length_cons]
    omega
  · unfold u16FromBeBytes
    omega
  · omega

/-- Closed instantiation of `c10_len_truncation` at a 65536-byte ASCII
payload: the recorded length truncates to 0 and disagrees with the true
length. -/
theorem c10_len_truncation_witness :
    Msg.new (List.replicate 65536 97) =
      .ok ⟨(List.replicate 65536 97).length % 65536, List.replicate 65536 97⟩ ∧
    (List.replicate 65536 97).length % 65536 ≠ (List.replicate 65536 97).length := by
  have h := c10_len_truncation (List.replicate 65536 97)
    (utf8Valid_replicate_ascii 97 (by omega) 65536)
    (by rw [List.length_replicate]; omega)
  exact ⟨h.1, h.2.2.2.2⟩

end Russula
